import Mathlib

/-!
Verification development for the MESH bonding engine.

Shallow embedding of the mesh_network package: the link aggregator
(weight computation, selection, bounded send queues), node discovery
(datagram validation and the advertisement wire format), the failover
manager (hysteresis counters, failed set, event log) and the mesh
manager peer table (stale-node eviction), together with the metrics
collector report path.

Python dictionaries are modelled as association lists of pairs whose
keys are unique in every reachable state (Python dict keys are unique);
floats are modelled as rationals; fallible code returns Option.
-/

namespace Mesh

/-- First-match lookup in an association list, as Python dict access. -/
def lookupA {α : Type} (l : List (String × α)) (k : String) : Option α :=
  (l.find? (fun p => p.1 == k)).map Prod.snd

/-- Apply f to the value stored at key k (all occurrences; keys are unique). -/
def updateA {α : Type} (l : List (String × α)) (k : String) (f : α → α) : List (String × α) :=
  l.map (fun p => if p.1 == k then (p.1, f p.2) else p)

/-- Python dict assignment: overwrite when present, append when absent. -/
def setA {α : Type} (l : List (String × α)) (k : String) (v : α) : List (String × α) :=
  if (lookupA l k).isSome then updateA l k (fun _ => v) else l ++ [(k, v)]

/-- Python dict .get with default. -/
def lookupD {α : Type} (l : List (String × α)) (k : String) (d : α) : α :=
  (lookupA l k).getD d

theorem lookupA_nil {α : Type} (k : String) : lookupA ([] : List (String × α)) k = none := rfl

theorem lookupA_cons {α : Type} (a : String) (b : α) (rest : List (String × α)) (k : String) :
    lookupA ((a, b) :: rest) k = if a == k then some b else lookupA rest k := by
  by_cases h : (a == k) = true <;> simp [lookupA, List.find?_cons, h]

theorem lookupA_updateA_self {α : Type} (l : List (String × α)) (k : String) (f : α → α) :
    lookupA (updateA l k f) k = (lookupA l k).map f := by
  induction l with
  | nil => rfl
  | cons p rest ih =>
    obtain ⟨a, b⟩ := p
    simp only [updateA, List.map_cons] at ih ⊢
    by_cases h : (a == k) = true
    · rw [if_pos h, lookupA_cons, if_pos h, lookupA_cons, if_pos h]
      rfl
    · rw [if_neg h, lookupA_cons, if_neg h, lookupA_cons, if_neg h]
      exact ih

theorem lookupA_updateA_ne {α : Type} (l : List (String × α)) (k j : String) (f : α → α)
    (hjk : j ≠ k) : lookupA (updateA l k f) j = lookupA l j := by
  induction l with
  | nil => rfl
  | cons p rest ih =>
    obtain ⟨a, b⟩ := p
    simp only [updateA, List.map_cons] at ih ⊢
    by_cases h : (a == k) = true
    · have haj : ¬ (a == j) = true := by
        intro hcon
        exact hjk ((beq_iff_eq.mp hcon).symm.trans (beq_iff_eq.mp h))
      rw [if_pos h, lookupA_cons, if_neg haj, lookupA_cons, if_neg haj]
      exact ih
    · by_cases haj : (a == j) = true
      · rw [if_neg h, lookupA_cons, if_pos haj, lookupA_cons, if_pos haj]
      · rw [if_neg h, lookupA_cons, if_neg haj, lookupA_cons, if_neg haj]
        exact ih

theorem lookupA_append_left {α : Type} (l m : List (String × α)) (k : String)
    (h : (lookupA l k).isSome) : lookupA (l ++ m) k = lookupA l k := by
  induction l with
  | nil => simp [lookupA] at h
  | cons p rest ih =>
    obtain ⟨a, b⟩ := p
    by_cases hak : (a == k) = true
    · simp [lookupA_cons, hak]
    · simp [lookupA_cons, hak] at h ⊢
      exact ih h

theorem lookupA_mem_keys {α : Type} (l : List (String × α)) (k : String) (v : α)
    (h : lookupA l k = some v) : k ∈ l.map Prod.fst := by
  induction l with
  | nil => simp [lookupA] at h
  | cons p rest ih =>
    obtain ⟨a, b⟩ := p
    by_cases hak : (a == k) = true
    · simp only [beq_iff_eq] at hak
      simp [hak]
    · simp [lookupA_cons, hak] at h
      simp [ih h]

/-! ## Link aggregator: connection records and weight computation
    (mesh_network/aggregation/link_aggregator.py) -/

/-- Per-interface connection record kept in LinkAggregator.active_connections. -/
structure ConnInfo where
  bandwidth : ℚ
  latency : ℚ
  data_cap : ℚ
  active : Bool
  packet_count : Nat
  bytes_sent : Nat
deriving DecidableEq, Repr

/-- An interface qualifies for a positive weight: active, positive bandwidth,
    latency below the 1000 ms sentinel. -/
def qualifies (c : ConnInfo) : Prop :=
  c.active = true ∧ 0 < c.bandwidth ∧ c.latency < 1000

instance (c : ConnInfo) : Decidable (qualifies c) := by
  unfold qualifies
  infer_instance

/-- Raw (unnormalised) weight of one connection, as computed inside
    LinkAggregator._calculate_weights. Inactive or disqualified connections
    get 0. A qualifying connection with latency exactly 0 makes the Python
    expression 100 / latency raise ZeroDivisionError, modelled as none. -/
def rawWeight (c : ConnInfo) : Option ℚ :=
  if c.active = false then some 0
  else if c.bandwidth ≤ 0 ∨ 1000 ≤ c.latency then some 0
  else if c.latency = 0 then none
  else some ((c.bandwidth / 100) * max (1 / 10) (100 / c.latency))

/-- First pass of _calculate_weights: raw weight per interface, in order. -/
def calcRaw : List (String × ConnInfo) → Option (List (String × ℚ))
  | [] => some []
  | (k, c) :: rest =>
    match rawWeight c with
    | none => none
    | some w =>
      match calcRaw rest with
      | none => none
      | some ws => some ((k, w) :: ws)

/-- LinkAggregator._calculate_weights: raw weights, then normalisation by the
    total when the total is positive. -/
def calculate_weights (conns : List (String × ConnInfo)) : Option (List (String × ℚ)) :=
  match calcRaw conns with
  | none => none
  | some raw =>
    let total := (raw.map Prod.snd).sum
    if 0 < total then some (raw.map (fun p => (p.1, p.2 / total))) else some raw

theorem rawWeight_nonneg (c : ConnInfo) (w : ℚ) (h : rawWeight c = some w) : 0 ≤ w := by
  unfold rawWeight at h
  split at h
  · simp only [Option.some_inj] at h
    exact h ▸ le_refl 0
  · split at h
    · simp only [Option.some_inj] at h
      exact h ▸ le_refl 0
    · split at h
      · exact absurd h (by simp)
      · simp only [Option.some_inj] at h
        subst h
        rename_i hact hqual hlat
        push_neg at hqual
        have hb : 0 < c.bandwidth := hqual.1
        have h1 : (0 : ℚ) < c.bandwidth / 100 := by positivity
        have h2 : (0 : ℚ) < max (1 / 10) (100 / c.latency) :=
          lt_of_lt_of_le (by norm_num) (le_max_left _ _)
        exact le_of_lt (mul_pos h1 h2)

theorem rawWeight_pos_of_qualifies (c : ConnInfo) (w : ℚ)
    (hq : qualifies c) (h : rawWeight c = some w) : 0 < w := by
  obtain ⟨hact, hb, hl⟩ := hq
  unfold rawWeight at h
  rw [hact] at h
  simp only [Bool.true_eq_false, if_false] at h
  have hcond : ¬ (c.bandwidth ≤ 0 ∨ 1000 ≤ c.latency) := by
    push_neg
    exact ⟨hb, hl⟩
  rw [if_neg hcond] at h
  split at h
  · exact absurd h (by simp)
  · simp only [Option.some_inj] at h
    subst h
    have h1 : (0 : ℚ) < c.bandwidth / 100 := by positivity
    have h2 : (0 : ℚ) < max (1 / 10) (100 / c.latency) :=
      lt_of_lt_of_le (by norm_num) (le_max_left _ _)
    exact mul_pos h1 h2

theorem rawWeight_zero_of_not_qualifies (c : ConnInfo) (w : ℚ)
    (hq : ¬ qualifies c) (h : rawWeight c = some w) : w = 0 := by
  unfold rawWeight at h
  split at h
  · simp only [Option.some_inj] at h
    exact h.symm
  · rename_i hact
    split at h
    · simp only [Option.some_inj] at h
      exact h.symm
    · rename_i hdq
      push_neg at hdq
      exact absurd ⟨by simpa using hact, hdq.1, hdq.2⟩ hq

theorem sum_map_div (l : List ℚ) (c : ℚ) : (l.map (fun x => x / c)).sum = l.sum / c := by
  induction l with
  | nil => simp
  | cons x xs ih => simp [add_div, ih]

theorem calcRaw_cases (k : String) (c : ConnInfo) (rest : List (String × ConnInfo))
    (raw : List (String × ℚ)) (h : calcRaw ((k, c) :: rest) = some raw) :
    ∃ w ws, rawWeight c = some w ∧ calcRaw rest = some ws ∧ raw = (k, w) :: ws := by
  simp only [calcRaw] at h
  cases hw : rawWeight c with
  | none => rw [hw] at h; simp at h
  | some w =>
    rw [hw] at h
    cases hr : calcRaw rest with
    | none => rw [hr] at h; simp at h
    | some ws =>
      rw [hr] at h
      simp only [Option.some_inj] at h
      exact ⟨w, ws, rfl, rfl, h.symm⟩

theorem calcRaw_nonneg (conns : List (String × ConnInfo)) (raw : List (String × ℚ))
    (h : calcRaw conns = some raw) : ∀ p ∈ raw, 0 ≤ p.2 := by
  induction conns generalizing raw with
  | nil =>
    simp only [calcRaw, Option.some_inj] at h
    subst h
    simp
  | cons pc rest ih =>
    obtain ⟨k, c⟩ := pc
    obtain ⟨w, ws, hw, hr, hraw⟩ := calcRaw_cases k c rest raw h
    subst hraw
    intro p hp
    rcases List.mem_cons.mp hp with hp | hp
    · subst hp
      exact rawWeight_nonneg c w hw
    · exact ih ws hr p hp

theorem calcRaw_pos_sum (conns : List (String × ConnInfo)) (raw : List (String × ℚ))
    (h : calcRaw conns = some raw) (hq : ∃ p ∈ conns, qualifies p.2) :
    0 < (raw.map Prod.snd).sum := by
  induction conns generalizing raw with
  | nil => simp at hq
  | cons pc rest ih =>
    obtain ⟨k, c⟩ := pc
    obtain ⟨w, ws, hw, hr, hraw⟩ := calcRaw_cases k c rest raw h
    subst hraw
    simp only [List.map_cons, List.sum_cons]
    have hws_nonneg : 0 ≤ (ws.map Prod.snd).sum := by
      apply List.sum_nonneg
      intro x hx
      rcases List.mem_map.mp hx with ⟨p, hp, hpx⟩
      exact hpx ▸ calcRaw_nonneg rest ws hr p hp
    rcases hq with ⟨p, hp, hpq⟩
    rcases List.mem_cons.mp hp with hp | hp
    · have hwpos : 0 < w := by
        apply rawWeight_pos_of_qualifies c w _ hw
        have : p.2 = c := by rw [hp]
        exact this ▸ hpq
      linarith
    · have hwnn : 0 ≤ w := rawWeight_nonneg c w hw
      have : 0 < (ws.map Prod.snd).sum := ih ws hr ⟨p, hp, hpq⟩
      linarith

theorem calcRaw_zero (conns : List (String × ConnInfo)) (raw : List (String × ℚ))
    (h : calcRaw conns = some raw) (hnq : ∀ p ∈ conns, ¬ qualifies p.2) :
    ∀ p ∈ raw, p.2 = 0 := by
  induction conns generalizing raw with
  | nil =>
    simp only [calcRaw, Option.some_inj] at h
    subst h
    simp
  | cons pc rest ih =>
    obtain ⟨k, c⟩ := pc
    obtain ⟨w, ws, hw, hr, hraw⟩ := calcRaw_cases k c rest raw h
    subst hraw
    intro p hp
    rcases List.mem_cons.mp hp with hp | hp
    · subst hp
      exact rawWeight_zero_of_not_qualifies c w (hnq (k, c) (List.mem_cons_self _ _)) hw
    · exact ih ws hr (fun q hq => hnq q (List.mem_cons_of_mem _ hq)) p hp

/-- C1: after a completed weight computation, the weights sum to exactly 1
    whenever at least one interface qualifies (active, bandwidth above 0,
    latency below 1000); when no interface qualifies every stored weight is 0.
    Amended from the claim: the weight map is NOT empty in the no-qualifier
    case, it carries a zero entry per registered interface. -/
theorem C1_weights_sum (conns : List (String × ConnInfo)) (ws : List (String × ℚ))
    (h : calculate_weights conns = some ws) :
    ((∃ p ∈ conns, qualifies p.2) → (ws.map Prod.snd).sum = 1) ∧
    ((∀ p ∈ conns, ¬ qualifies p.2) → ∀ p ∈ ws, p.2 = 0) := by
  unfold calculate_weights at h
  cases hr : calcRaw conns with
  | none => rw [hr] at h; simp at h
  | some raw =>
    rw [hr] at h
    simp only [] at h
    constructor
    · intro hq
      have hpos : 0 < (raw.map Prod.snd).sum := calcRaw_pos_sum conns raw hr hq
      rw [if_pos hpos] at h
      simp only [Option.some_inj] at h
      subst h
      rw [List.map_map]
      have hcomp : (Prod.snd ∘ fun p : String × ℚ => (p.1, p.2 / (raw.map Prod.snd).sum))
          = (fun x => x / (raw.map Prod.snd).sum) ∘ Prod.snd := rfl
      rw [hcomp, ← List.map_map, sum_map_div]
      exact div_self (ne_of_gt hpos)
    · intro hnq
      have hz : ∀ p ∈ raw, p.2 = 0 := calcRaw_zero conns raw hr hnq
      have hsum : (raw.map Prod.snd).sum = 0 := by
        apply List.sum_eq_zero
        intro x hx
        rcases List.mem_map.mp hx with ⟨p, hp, hpx⟩
        exact hpx ▸ hz p hp
      rw [hsum, if_neg (lt_irrefl 0)] at h
      simp only [Option.some_inj] at h
      subst h
      exact hz

/-- A single registered connection that is active but has zero bandwidth:
    it does not qualify for a positive weight. -/
def conns0 : List (String × ConnInfo) :=
  [("eth0", ⟨0, 10, 0, true, 0, 0⟩)]

/-- A single qualifying connection (bandwidth 100, latency 100). -/
def conns1 : List (String × ConnInfo) :=
  [("eth0", ⟨100, 100, 0, true, 0, 0⟩)]

/-- C1 counterexample: with one registered interface and no qualifying
    interface, _calculate_weights returns a NON-empty weight map holding a
    zero entry, contradicting the claim that the map is then empty. -/
theorem C1_counterexample :
    (∀ p ∈ conns0, ¬ qualifies p.2) ∧
    calculate_weights conns0 = some [("eth0", 0)] ∧
    [(("eth0" : String), (0 : ℚ))] ≠ ([] : List (String × ℚ)) :=
  ⟨by decide, by norm_num [calculate_weights, calcRaw, rawWeight, conns0], by decide⟩

/-- C1 witness: a concrete qualifying configuration where the computed
    weights sum to 1. -/
theorem C1_weights_sum_witness :
    calculate_weights conns1 = some [("eth0", 1)] ∧
    (([(("eth0" : String), (1 : ℚ))].map Prod.snd).sum = 1) := by
  have h : calculate_weights conns1 = some [("eth0", 1)] := by
    norm_num [calculate_weights, calcRaw, rawWeight, conns1]
  exact ⟨h, (C1_weights_sum conns1 [("eth0", 1)] h).1 (by decide)⟩

/-! ## Link aggregator: mode, selection and the bounded send queues -/

/-- Aggregation mode strings of link_aggregator.py. -/
inductive AggMode
  | load_balance
  | failover
  | adaptive
deriving DecidableEq, Repr

/-- LinkAggregator state relevant to selection and queueing. -/
structure LinkAggregator where
  aggregation_mode : AggMode
  active_connections : List (String × ConnInfo)
  connection_weights : List (String × ℚ)
  packet_queues : List (String × List (List Nat))
  max_queue_size : Nat
deriving DecidableEq, Repr

/-- Failover branch of select_connection: first connection with active set. -/
def firstActive : List (String × ConnInfo) → Option String
  | [] => none
  | (k, c) :: rest => if c.active then some k else firstActive rest

/-- The cumulative-weight loop of _weighted_random_selection: return the
    first interface whose cumulative normalised weight reaches the draw r. -/
def cumPick (r : ℚ) : ℚ → List (ℚ × String) → Option String
  | _, [] => none
  | acc, (w, i) :: rest => if r ≤ acc + w then some i else cumPick r (acc + w) rest

/-- LinkAggregator._weighted_random_selection with the numpy draw r passed
    in explicitly. -/
def weighted_random_selection (agg : LinkAggregator) (r : ℚ) : Option String :=
  let act := agg.active_connections.filter
    (fun p => p.2.active && decide (0 < lookupD agg.connection_weights p.1 0))
  match act with
  | [] => none
  | _ :: _ =>
    let ifaces := act.map Prod.fst
    let ws := ifaces.map (fun i => lookupD agg.connection_weights i 0)
    let total := ws.sum
    if total = 0 then ifaces.head?
    else
      let nws := ws.map (fun w => w / total)
      match cumPick r 0 (nws.zip ifaces) with
      | some i => some i
      | none => ifaces.getLast?

/-- Python max over interface names keyed by a connection field: returns the
    first maximal entry. The dict lookup inside the key function is resolved
    against the pair carried along (dict keys are unique). -/
def pyArgMaxBy (f : ConnInfo → ℚ) : List (String × ConnInfo) → Option String
  | [] => none
  | p :: ps => some ((ps.foldl (fun b a => if f b.2 < f a.2 then a else b) p).1)

/-- Python min over interface names keyed by a connection field. -/
def pyArgMinBy (f : ConnInfo → ℚ) : List (String × ConnInfo) → Option String
  | [] => none
  | p :: ps => some ((ps.foldl (fun b a => if f a.2 < f b.2 then a else b) p).1)

/-- LinkAggregator._adaptive_selection. -/
def adaptive_selection (agg : LinkAggregator) (packet_size : Nat) (r : ℚ) : Option String :=
  if packet_size = 0 then weighted_random_selection agg r
  else
    let act := agg.active_connections.filter (fun p => p.2.active)
    match act with
    | [] => none
    | _ :: _ =>
      if 1000 < packet_size then pyArgMaxBy (fun c => c.bandwidth) act
      else pyArgMinBy (fun c => c.latency) act

/-- LinkAggregator.select_connection. -/
def select_connection (agg : LinkAggregator) (packet_size : Nat) (r : ℚ) : Option String :=
  match agg.active_connections with
  | [] => none
  | _ :: _ =>
    match agg.aggregation_mode with
    | AggMode.failover => firstActive agg.active_connections
    | AggMode.load_balance => weighted_random_selection agg r
    | AggMode.adaptive => adaptive_selection agg packet_size r

/-- Interface resolution at the top of queue_packet: the caller override if
    given, otherwise select_connection on the payload length. -/
def resolve_interface (agg : LinkAggregator) (packet_data : List Nat)
    (interface : Option String) (r : ℚ) : Option String :=
  match interface with
  | some i => some i
  | none => select_connection agg packet_data.length r

/-- LinkAggregator.queue_packet: returns the success flag and the new state.
    The empty interface name is falsy in Python and rejected like None. -/
def queue_packet (agg : LinkAggregator) (packet_data : List Nat)
    (interface : Option String) (r : ℚ) : Bool × LinkAggregator :=
  match resolve_interface agg packet_data interface r with
  | none => (false, agg)
  | some i =>
    if i = "" then (false, agg)
    else
      match lookupA agg.packet_queues i with
      | none => (false, agg)
      | some q =>
        if agg.max_queue_size ≤ q.length then (false, agg)
        else
          (true,
            { agg with
              packet_queues := updateA agg.packet_queues i (fun qq => qq ++ [packet_data]),
              active_connections :=
                if (lookupA agg.active_connections i).isSome then
                  updateA agg.active_connections i (fun c =>
                    { c with packet_count := c.packet_count + 1,
                             bytes_sent := c.bytes_sent + packet_data.length })
                else agg.active_connections })

/-- LinkAggregator.get_packet_from_queue: popleft, or None on a missing or
    empty queue (IndexError is swallowed). -/
def get_packet_from_queue (agg : LinkAggregator) (interface : String) :
    Option (List Nat) × LinkAggregator :=
  match lookupA agg.packet_queues interface with
  | none => (none, agg)
  | some [] => (none, agg)
  | some (p :: _) =>
    (some p,
      { agg with packet_queues := updateA agg.packet_queues interface List.tail })

/-- Repeated dequeue: the packets produced by fuel successive calls to
    get_packet_from_queue on one interface. -/
def drainQueue : LinkAggregator → String → Nat → List (List Nat)
  | _, _, 0 => []
  | agg, i, Nat.succ fuel =>
    match get_packet_from_queue agg i with
    | (none, _) => []
    | (some p, agg2) => p :: drainQueue agg2 i fuel

/-- C2: queue_packet either succeeds, appending exactly one element to the
    target queue and bumping that connection record by one packet and
    len(payload) bytes while leaving every other queue and record alone, or
    fails (no interface resolved, unknown queue, or queue at max_queue_size)
    leaving the whole aggregator state unchanged. The hypothesis records the
    initialize invariant that every queue key has a connection record. -/
theorem C2_enqueue_contract (agg : LinkAggregator) (packet_data : List Nat)
    (interface : Option String) (r : ℚ)
    (hdom : ∀ i ∈ agg.packet_queues.map Prod.fst,
      (lookupA agg.active_connections i).isSome = true) :
    ((queue_packet agg packet_data interface r).1 = false →
      (queue_packet agg packet_data interface r).2 = agg) ∧
    ((queue_packet agg packet_data interface r).1 = true →
      ∃ i q c,
        lookupA agg.packet_queues i = some q ∧
        q.length < agg.max_queue_size ∧
        lookupA (queue_packet agg packet_data interface r).2.packet_queues i
          = some (q ++ [packet_data]) ∧
        (∀ j, j ≠ i →
          lookupA (queue_packet agg packet_data interface r).2.packet_queues j
            = lookupA agg.packet_queues j) ∧
        lookupA agg.active_connections i = some c ∧
        lookupA (queue_packet agg packet_data interface r).2.active_connections i
          = some { c with packet_count := c.packet_count + 1,
                          bytes_sent := c.bytes_sent + packet_data.length } ∧
        (∀ j, j ≠ i →
          lookupA (queue_packet agg packet_data interface r).2.active_connections j
            = lookupA agg.active_connections j)) := by
  cases hif : resolve_interface agg packet_data interface r with
  | none =>
    simp [queue_packet, hif]
  | some i =>
    by_cases hemp : i = ""
    · simp [queue_packet, hif, hemp]
    · cases hq : lookupA agg.packet_queues i with
      | none => simp [queue_packet, hif, hemp, hq]
      | some q =>
        by_cases hlen : agg.max_queue_size ≤ q.length
        · simp [queue_packet, hif, hemp, hq, hlen]
        · have hc0 : (lookupA agg.active_connections i).isSome = true :=
            hdom i (lookupA_mem_keys agg.packet_queues i q hq)
          obtain ⟨c, hc⟩ := Option.isSome_iff_exists.mp hc0
          have hres : queue_packet agg packet_data interface r =
              (true,
                { agg with
                  packet_queues := updateA agg.packet_queues i (fun qq => qq ++ [packet_data]),
                  active_connections :=
                    updateA agg.active_connections i (fun cc =>
                      { cc with packet_count := cc.packet_count + 1,
                                bytes_sent := cc.bytes_sent + packet_data.length }) }) := by
            simp [queue_packet, hif, hemp, hq, hlen, hc0]
          rw [hres]
          dsimp only
          constructor
          · intro hfalse
            exact absurd hfalse (by simp)
          · intro _
            refine ⟨i, q, c, hq, Nat.lt_of_not_le hlen, ?_, ?_, hc, ?_, ?_⟩
            · show lookupA (updateA agg.packet_queues i (fun qq => qq ++ [packet_data])) i
                = some (q ++ [packet_data])
              rw [lookupA_updateA_self, hq]
              rfl
            · intro j hj
              exact lookupA_updateA_ne agg.packet_queues i j _ hj
            · show lookupA (updateA agg.active_connections i _) i = _
              rw [lookupA_updateA_self, hc]
              rfl
            · intro j hj
              exact lookupA_updateA_ne agg.active_connections i j _ hj

/-- A one-interface aggregator state as produced by initialize. -/
def agg1 : LinkAggregator :=
  { aggregation_mode := AggMode.load_balance
    active_connections := [("eth0", ⟨100, 10, 0, true, 0, 0⟩)]
    connection_weights := [("eth0", 1)]
    packet_queues := [("eth0", [])]
    max_queue_size := 1000 }

/-- C2 witness: the contract instantiated at a concrete state and payload. -/
theorem C2_enqueue_contract_witness :
    ((queue_packet agg1 [7, 8] (some "eth0") 0).1 = false →
      (queue_packet agg1 [7, 8] (some "eth0") 0).2 = agg1) ∧
    ((queue_packet agg1 [7, 8] (some "eth0") 0).1 = true →
      ∃ i q c,
        lookupA agg1.packet_queues i = some q ∧
        q.length < agg1.max_queue_size ∧
        lookupA (queue_packet agg1 [7, 8] (some "eth0") 0).2.packet_queues i
          = some (q ++ [[7, 8]]) ∧
        (∀ j, j ≠ i →
          lookupA (queue_packet agg1 [7, 8] (some "eth0") 0).2.packet_queues j
            = lookupA agg1.packet_queues j) ∧
        lookupA agg1.active_connections i = some c ∧
        lookupA (queue_packet agg1 [7, 8] (some "eth0") 0).2.active_connections i
          = some { c with packet_count := c.packet_count + 1,
                          bytes_sent := c.bytes_sent + [7, 8].length } ∧
        (∀ j, j ≠ i →
          lookupA (queue_packet agg1 [7, 8] (some "eth0") 0).2.active_connections j
            = lookupA agg1.active_connections j)) :=
  C2_enqueue_contract agg1 [7, 8] (some "eth0") 0 (by decide)

theorem get_packet_cons (agg : LinkAggregator) (i : String) (p : List Nat)
    (rest : List (List Nat)) (h : lookupA agg.packet_queues i = some (p :: rest)) :
    get_packet_from_queue agg i =
      (some p, { agg with packet_queues := updateA agg.packet_queues i List.tail }) := by
  simp [get_packet_from_queue, h]

/-- C10: each per-interface send queue is FIFO. Dequeue on a missing or empty
    queue returns none with the aggregator state unchanged, and draining a
    queue returns exactly the queued payloads in the order enqueue appended
    them. -/
theorem C10_fifo_queue (agg : LinkAggregator) (i : String) :
    (lookupA agg.packet_queues i = none → get_packet_from_queue agg i = (none, agg)) ∧
    (∀ qs, lookupA agg.packet_queues i = some qs →
      drainQueue agg i qs.length = qs ∧
      (qs = [] → get_packet_from_queue agg i = (none, agg))) := by
  constructor
  · intro h
    simp [get_packet_from_queue, h]
  · intro qs hqs
    constructor
    · induction qs generalizing agg with
      | nil => simp [drainQueue]
      | cons p rest ih =>
        have hget := get_packet_cons agg i p rest hqs
        show drainQueue agg i (rest.length + 1) = p :: rest
        rw [drainQueue, hget]
        dsimp only
        have hqs2 : lookupA ({ agg with
            packet_queues := updateA agg.packet_queues i List.tail }).packet_queues i
            = some rest := by
          dsimp only
          rw [lookupA_updateA_self, hqs]
          rfl
        rw [ih _ hqs2]
    · intro hnil
      subst hnil
      simp [get_packet_from_queue, hqs]

/-- A queue holding three payloads in order. -/
def agg2 : LinkAggregator :=
  { aggregation_mode := AggMode.load_balance
    active_connections := [("eth0", ⟨100, 10, 0, true, 3, 6⟩)]
    connection_weights := [("eth0", 1)]
    packet_queues := [("eth0", [[1], [2], [3]])]
    max_queue_size := 1000 }

/-- C10 witness: draining the concrete three-element queue returns the
    payloads in enqueue order. -/
theorem C10_fifo_queue_witness :
    drainQueue agg2 "eth0" ([[1], [2], [3]] : List (List Nat)).length = [[1], [2], [3]] :=
  ((C10_fifo_queue agg2 "eth0").2 [[1], [2], [3]] (by decide)).1

theorem cumPick_mem (r : ℚ) (acc : ℚ) (l : List (ℚ × String)) (i : String)
    (h : cumPick r acc l = some i) : i ∈ l.map Prod.snd := by
  induction l generalizing acc with
  | nil => simp [cumPick] at h
  | cons p rest ih =>
    obtain ⟨w, x⟩ := p
    rw [cumPick] at h
    by_cases hle : r ≤ acc + w
    · rw [if_pos hle] at h
      simp only [Option.some_inj] at h
      subst h
      simp
    · rw [if_neg hle] at h
      simp only [List.map_cons, List.mem_cons]
      exact Or.inr (ih (acc + w) h)

theorem head?_mem_list {α : Type} (l : List α) (a : α) (h : l.head? = some a) : a ∈ l := by
  cases l with
  | nil => simp at h
  | cons x xs =>
    simp only [List.head?_cons, Option.some_inj] at h
    subst h
    simp

theorem getLast?_mem_list {α : Type} (l : List α) (a : α) (h : l.getLast? = some a) : a ∈ l := by
  induction l with
  | nil => simp at h
  | cons x xs ih =>
    cases xs with
    | nil =>
      simp only [List.getLast?_singleton, Option.some_inj] at h
      subst h
      simp
    | cons y ys =>
      rw [List.getLast?_cons_cons] at h
      exact List.mem_cons_of_mem x (ih h)

theorem weighted_random_selection_mem (agg : LinkAggregator) (r : ℚ) (i : String)
    (h : weighted_random_selection agg r = some i) :
    i ∈ (agg.active_connections.filter
      (fun p => p.2.active && decide (0 < lookupD agg.connection_weights p.1 0))).map Prod.fst := by
  unfold weighted_random_selection at h
  cases hacts : agg.active_connections.filter
      (fun p => p.2.active && decide (0 < lookupD agg.connection_weights p.1 0)) with
  | nil =>
    rw [hacts] at h
    simp at h
  | cons a rest =>
    rw [hacts] at h
    dsimp only at h
    split at h
    · exact head?_mem_list _ i h
    · split at h
      · rename_i x hcp
        simp only [Option.some_inj] at h
        subst h
        have hmem := cumPick_mem _ _ _ _ hcp
        rcases List.mem_map.mp hmem with ⟨pr, hpr, hsnd⟩
        exact hsnd ▸ (List.of_mem_zip hpr).2
      · exact getLast?_mem_list _ i h

theorem lookupA_of_mem_nodup {α : Type} (l : List (String × α)) (p : String × α)
    (hp : p ∈ l) (hnd : (l.map Prod.fst).Nodup) : lookupA l p.1 = some p.2 := by
  induction l with
  | nil => simp at hp
  | cons q rest ih =>
    obtain ⟨a, b⟩ := q
    simp only [List.map_cons, List.nodup_cons] at hnd
    rcases List.mem_cons.mp hp with hp | hp
    · subst hp
      simp [lookupA_cons]
    · have hne : ¬ (a == p.1) = true := by
        intro hcon
        exact hnd.1 (beq_iff_eq.mp hcon ▸ List.mem_map.mpr ⟨p, hp, rfl⟩)
      rw [lookupA_cons, if_neg hne]
      exact ih hp hnd.2

/-- C5 (amended): under load_balance mode, and under adaptive mode with
    packet size 0 (which falls back to weighted random selection), selection
    never returns an interface whose weight is 0 or which is inactive.
    The failover and adaptive branches select among active interfaces
    irrespective of weight, which is why the original claim fails. -/
theorem C5_load_balance_positive_weight (agg : LinkAggregator) (ps : Nat) (r : ℚ) (i : String)
    (hmode : agg.aggregation_mode = AggMode.load_balance ∨
      (agg.aggregation_mode = AggMode.adaptive ∧ ps = 0))
    (hnd : (agg.active_connections.map Prod.fst).Nodup)
    (h : select_connection agg ps r = some i) :
    0 < lookupD agg.connection_weights i 0 ∧
    ∃ c, lookupA agg.active_connections i = some c ∧ c.active = true := by
  have hwrs : weighted_random_selection agg r = some i := by
    unfold select_connection at h
    cases hconns : agg.active_connections with
    | nil => rw [hconns] at h; simp at h
    | cons a rest =>
      rw [hconns] at h
      dsimp only at h
      rcases hmode with hm | ⟨hm, hps⟩
      · rw [hm] at h
        dsimp only at h
        exact h
      · rw [hm] at h
        dsimp only at h
        unfold adaptive_selection at h
        rw [hps, if_pos rfl] at h
        exact h
  have hmem := weighted_random_selection_mem agg r i hwrs
  rcases List.mem_map.mp hmem with ⟨p, hp, hfst⟩
  have hfilter := List.mem_filter.mp hp
  have hpred := hfilter.2
  simp only [Bool.and_eq_true, decide_eq_true_eq] at hpred
  subst hfst
  refine ⟨hpred.2, p.2, ?_, hpred.1⟩
  exact lookupA_of_mem_nodup agg.active_connections p hfilter.1 hnd

/-- Failover-mode aggregator whose only connection is active but carries
    weight 0 because its bandwidth is 0, exactly as _calculate_weights
    leaves it. -/
def aggFailoverCex : LinkAggregator :=
  { aggregation_mode := AggMode.failover
    active_connections := [("eth0", ⟨0, 10, 0, true, 0, 0⟩)]
    connection_weights := [("eth0", 0)]
    packet_queues := [("eth0", [])]
    max_queue_size := 1000 }

/-- C5 counterexample: in failover mode select_connection returns the first
    active interface even though its weight is 0 (and that zero weight is
    the one _calculate_weights itself computes for this state). -/
theorem C5_counterexample :
    select_connection aggFailoverCex 0 0 = some "eth0" ∧
    lookupD aggFailoverCex.connection_weights "eth0" 0 = 0 ∧
    calculate_weights aggFailoverCex.active_connections
      = some aggFailoverCex.connection_weights :=
  ⟨by decide, by decide,
    by norm_num [calculate_weights, calcRaw, rawWeight, aggFailoverCex]⟩

/-- Load-balance aggregator with one qualifying weighted connection. -/
def aggLB : LinkAggregator :=
  { aggregation_mode := AggMode.load_balance
    active_connections := [("eth0", ⟨100, 100, 0, true, 0, 0⟩)]
    connection_weights := [("eth0", 1)]
    packet_queues := [("eth0", [])]
    max_queue_size := 1000 }

/-- C5 witness: the amended statement instantiated at a concrete
    load-balance selection. -/
theorem C5_load_balance_positive_weight_witness :
    0 < lookupD aggLB.connection_weights "eth0" 0 ∧
    ∃ c, lookupA aggLB.active_connections "eth0" = some c ∧ c.active = true :=
  C5_load_balance_positive_weight aggLB 0 1 "eth0" (Or.inl rfl) (by decide)
    (by norm_num [select_connection, weighted_random_selection, lookupD, lookupA,
      aggLB, cumPick, List.filter, List.find?])

/-! ## Node discovery: JSON payloads, validation, advertisement wire format
    (mesh_network/networking/node_discovery.py) -/

/-- JSON values as decoded by json.loads. -/
inductive JsonVal
  | str (s : String)
  | num (q : ℚ)
  | jbool (b : Bool)
  | jnull
  | arr (xs : List JsonVal)
  | obj (fields : List (String × JsonVal))

/-- Python isinstance(x, str). -/
def isStrV : JsonVal → Bool
  | JsonVal.str _ => true
  | _ => false

/-- Python isinstance(x, list). -/
def isArrV : JsonVal → Bool
  | JsonVal.arr _ => true
  | _ => false

/-- Python isinstance(x, dict). -/
def isObjV : JsonVal → Bool
  | JsonVal.obj _ => true
  | _ => false

/-- Python equality between a decoded JSON value and self.node_id
    (an Optional string). -/
def eqPySelf (v : JsonVal) : Option String → Bool
  | some sid =>
    match v with
    | JsonVal.str s => s == sid
    | _ => false
  | none =>
    match v with
    | JsonVal.jnull => true
    | _ => false

/-- The five required fields of NodeDiscovery._validate_node_data. -/
def required_fields : List String :=
  ["node_id", "ip_address", "connections", "bandwidth", "latency"]

/-- NodeDiscovery._validate_node_data on the decoded top-level object:
    all required fields present, node_id not the local id, and the five
    fields of the asserted types. The group field is never read. -/
def validate_node_data (nd : List (String × JsonVal)) (selfId : Option String) : Bool :=
  if ¬ (required_fields.all fun f => (lookupA nd f).isSome) then false
  else if eqPySelf ((lookupA nd "node_id").getD JsonVal.jnull) selfId then false
  else
    isStrV ((lookupA nd "node_id").getD JsonVal.jnull)
    && isStrV ((lookupA nd "ip_address").getD JsonVal.jnull)
    && isArrV ((lookupA nd "connections").getD JsonVal.jnull)
    && isObjV ((lookupA nd "bandwidth").getD JsonVal.jnull)
    && isObjV ((lookupA nd "latency").getD JsonVal.jnull)

/-- Node record of mesh_manager.MeshNode. -/
structure MeshNode where
  node_id : String
  ip_address : String
  connections : List String
  bandwidth : List (String × ℚ)
  latency : List (String × ℚ)
  last_seen : ℚ
  data_caps : List (String × ℚ)
deriving DecidableEq, Repr

/-- The advertisement_data dictionary built by NodeDiscovery.advertise_node. -/
def node_data_fields (n : MeshNode) (ts : ℚ) : List (String × JsonVal) :=
  [("node_id", JsonVal.str n.node_id),
   ("ip_address", JsonVal.str n.ip_address),
   ("connections", JsonVal.arr (n.connections.map JsonVal.str)),
   ("bandwidth", JsonVal.obj (n.bandwidth.map (fun p => (p.1, JsonVal.num p.2)))),
   ("latency", JsonVal.obj (n.latency.map (fun p => (p.1, JsonVal.num p.2)))),
   ("data_caps", JsonVal.obj (n.data_caps.map (fun p => (p.1, JsonVal.num p.2)))),
   ("timestamp", JsonVal.num ts)]

/-- The advertisement_packet envelope built by
    NodeDiscovery._send_advertisement: the node data is nested under the
    node_data key next to type, group and timestamp. -/
def advertisement_fields (n : MeshNode) (ts ts2 : ℚ) : List (String × JsonVal) :=
  [("type", JsonVal.str "NODE_ADVERTISEMENT"),
   ("node_data", JsonVal.obj (node_data_fields n ts)),
   ("group", JsonVal.str "MESH_NETWORK_GROUP"),
   ("timestamp", JsonVal.num ts2)]

theorem lookupA_filter_ne {α : Type} (l : List (String × α)) (k g : String)
    (hkg : (k == g) = false) :
    lookupA (l.filter (fun p => !(p.1 == g))) k = lookupA l k := by
  induction l with
  | nil => rfl
  | cons p rest ih =>
    obtain ⟨a, b⟩ := p
    rw [List.filter_cons]
    by_cases hag : (a == g) = true
    · have hak : ¬ (a == k) = true := by
        intro hcon
        rw [beq_iff_eq] at hag hcon
        rw [beq_eq_false_iff_ne] at hkg
        exact hkg (hcon ▸ hag)
      simp only [hag, Bool.not_true, Bool.false_eq_true, if_false]
      rw [ih, lookupA_cons, if_neg hak]
    · rw [Bool.not_eq_true] at hag
      simp only [hag, Bool.not_false, if_true]
      rw [lookupA_cons, lookupA_cons]
      by_cases hak : (a == k) = true
      · rw [if_pos hak, if_pos hak]
      · rw [if_neg hak, if_neg hak, ih]

/-- C3 (amended): validation of a received discovery datagram never examines
    the group field: deleting every group entry from the decoded object
    leaves the acceptance decision unchanged. Acceptance depends only on
    the five required fields and the node_id comparison. -/
theorem C3_group_never_examined (nd : List (String × JsonVal)) (selfId : Option String) :
    validate_node_data (nd.filter (fun p => !(p.1 == "group"))) selfId
      = validate_node_data nd selfId := by
  have h1 : lookupA (nd.filter (fun p => !(p.1 == "group"))) "node_id" = lookupA nd "node_id" :=
    lookupA_filter_ne nd "node_id" "group" (by decide)
  have h2 : lookupA (nd.filter (fun p => !(p.1 == "group"))) "ip_address"
      = lookupA nd "ip_address" :=
    lookupA_filter_ne nd "ip_address" "group" (by decide)
  have h3 : lookupA (nd.filter (fun p => !(p.1 == "group"))) "connections"
      = lookupA nd "connections" :=
    lookupA_filter_ne nd "connections" "group" (by decide)
  have h4 : lookupA (nd.filter (fun p => !(p.1 == "group"))) "bandwidth"
      = lookupA nd "bandwidth" :=
    lookupA_filter_ne nd "bandwidth" "group" (by decide)
  have h5 : lookupA (nd.filter (fun p => !(p.1 == "group"))) "latency"
      = lookupA nd "latency" :=
    lookupA_filter_ne nd "latency" "group" (by decide)
  unfold validate_node_data
  rw [required_fields]
  simp only [List.all_cons, List.all_nil, h1, h2, h3, h4, h5]

/-- A discovery payload carrying the five required fields and no group
    field at all. -/
def ndNoGroup : List (String × JsonVal) :=
  [("node_id", JsonVal.str "peer-001"),
   ("ip_address", JsonVal.str "192.168.1.101"),
   ("connections", JsonVal.arr []),
   ("bandwidth", JsonVal.obj []),
   ("latency", JsonVal.obj [])]

/-- C3 counterexample: a datagram with no group field at all is accepted by
    _validate_node_data, refuting the claim that only datagrams carrying the
    matching group string are accepted. -/
theorem C3_counterexample :
    validate_node_data ndNoGroup (some "local-node") = true ∧
    (lookupA ndNoGroup "group").isSome = false := by
  constructor
  · rfl
  · rfl

/-- C3 witness: the group-independence theorem instantiated at a concrete
    datagram that does carry a group entry. -/
def ndWithGroup : List (String × JsonVal) :=
  ("group", JsonVal.str "OTHER_GROUP") :: ndNoGroup

theorem C3_group_never_examined_witness :
    validate_node_data (ndWithGroup.filter (fun p => !(p.1 == "group"))) (some "local-node")
      = validate_node_data ndWithGroup (some "local-node") :=
  C3_group_never_examined ndWithGroup (some "local-node")

/-- C4 (code behaviour at the failing input): the advertisement envelope
    produced by _send_advertisement nests the node fields under node_data,
    so the receiving sides _validate_node_data, which inspects the top
    level, rejects every advertisement; the inner node_data object itself
    would validate whenever the node id differs from the local id. -/
theorem C4_roundtrip_rejected (n : MeshNode) (ts ts2 : ℚ) (selfId : Option String) :
    validate_node_data (advertisement_fields n ts ts2) selfId = false ∧
    (∀ sid : String, ¬ (n.node_id = sid) →
      validate_node_data (node_data_fields n ts) (some sid) = true) := by
  constructor
  · rfl
  · intro sid hne
    unfold validate_node_data
    have hid : lookupA (node_data_fields n ts) "node_id" = some (JsonVal.str n.node_id) := rfl
    have hip : lookupA (node_data_fields n ts) "ip_address"
        = some (JsonVal.str n.ip_address) := rfl
    have hcn : lookupA (node_data_fields n ts) "connections"
        = some (JsonVal.arr (n.connections.map JsonVal.str)) := rfl
    have hbw : lookupA (node_data_fields n ts) "bandwidth"
        = some (JsonVal.obj (n.bandwidth.map (fun p => (p.1, JsonVal.num p.2)))) := rfl
    have hlt : lookupA (node_data_fields n ts) "latency"
        = some (JsonVal.obj (n.latency.map (fun p => (p.1, JsonVal.num p.2)))) := rfl
    rw [required_fields]
    simp only [List.all_cons, List.all_nil, hid, hip, hcn, hbw, hlt]
    simp only [Option.isSome_some, Bool.and_true, Bool.and_self, not_true_eq_false,
      if_false, Option.getD_some]
    have hself : eqPySelf (JsonVal.str n.node_id) (some sid) = false := by
      simp only [eqPySelf]
      exact beq_eq_false_iff_ne.mpr hne
    rw [hself]
    rfl

/-- A concrete peer node record. -/
def peerNode : MeshNode :=
  { node_id := "peer-001"
    ip_address := "192.168.1.101"
    connections := ["eth0"]
    bandwidth := [("eth0", 100)]
    latency := [("eth0", 10)]
    last_seen := 0
    data_caps := [("eth0", 0)] }

/-- C4 witness: the failing input evaluated concretely; the envelope for
    peerNode is rejected while its inner node_data object validates. -/
theorem C4_roundtrip_rejected_witness :
    validate_node_data (advertisement_fields peerNode 1 2) (some "local-node") = false ∧
    validate_node_data (node_data_fields peerNode 1) (some "local-node") = true :=
  ⟨(C4_roundtrip_rejected peerNode 1 2 (some "local-node")).1,
   (C4_roundtrip_rejected peerNode 1 2 (some "local-node")).2 "local-node" (by decide)⟩

/-! ## Failover manager: hysteresis counters, failed set, event log
    (mesh_network/failover/failover_manager.py) -/

/-- One entry of FailoverManager.failover_events. -/
structure FailoverEvent where
  event_type : String
  interface : String
  timestamp : ℚ
deriving DecidableEq, Repr

/-- FailoverManager state driving the failover/recovery transitions. -/
structure FailoverManager where
  primary_interface : Option String
  backup_interfaces : List String
  failed_interfaces : List String
  failover_threshold : Nat
  recovery_threshold : Nat
  failure_counts : List (String × Nat)
  success_counts : List (String × Nat)
  failover_events : List FailoverEvent
deriving DecidableEq, Repr

/-- FailoverManager._select_new_primary: first backup not in the failed set. -/
def select_new_primary (fm : FailoverManager) : FailoverManager :=
  match fm.backup_interfaces.filter (fun j => !(fm.failed_interfaces.contains j)) with
  | [] => { fm with primary_interface := none }
  | j :: _ => { fm with primary_interface := some j }

/-- FailoverManager._failover_interface: add to the failed set and log one
    connection_lost event, unless already failed. -/
def failover_interface (fm : FailoverManager) (iface : String) (now : ℚ) : FailoverManager :=
  if iface ∈ fm.failed_interfaces then fm
  else
    let fm2 := { fm with
      failed_interfaces := iface :: fm.failed_interfaces,
      failover_events := fm.failover_events ++ [⟨"connection_lost", iface, now⟩] }
    if fm2.primary_interface = some iface then select_new_primary fm2 else fm2

/-- FailoverManager._recover_interface: remove from the failed set, reset
    both counters, log one connection_restored event, re-evaluate primary;
    no-op when the interface is not failed. -/
def recover_interface (fm : FailoverManager) (iface : String) (now : ℚ) : FailoverManager :=
  if iface ∈ fm.failed_interfaces then
    select_new_primary { fm with
      failed_interfaces := fm.failed_interfaces.filter (fun j => !(j == iface)),
      failure_counts := setA fm.failure_counts iface 0,
      success_counts := setA fm.success_counts iface 0,
      failover_events := fm.failover_events ++ [⟨"connection_restored", iface, now⟩] }
  else fm

/-- FailoverManager._handle_connection_success. -/
def handle_connection_success (fm : FailoverManager) (iface : String) (now : ℚ) :
    FailoverManager :=
  let fm1 := { fm with failure_counts := setA fm.failure_counts iface 0 }
  let sc := lookupD fm1.success_counts iface 0 + 1
  let fm2 := { fm1 with success_counts := setA fm1.success_counts iface sc }
  if iface ∈ fm2.failed_interfaces ∧ fm2.recovery_threshold ≤ sc then
    recover_interface fm2 iface now
  else fm2

/-- FailoverManager._handle_connection_failure. -/
def handle_connection_failure (fm : FailoverManager) (iface : String) (now : ℚ) :
    FailoverManager :=
  let fm1 := { fm with success_counts := setA fm.success_counts iface 0 }
  let fc := lookupD fm1.failure_counts iface 0 + 1
  let fm2 := { fm1 with failure_counts := setA fm1.failure_counts iface fc }
  if fm2.failover_threshold ≤ fc then failover_interface fm2 iface now
  else fm2

/-- One interface of a monitoring tick of check_failover_conditions, with
    the health probe outcome passed in. -/
def tick_interface (fm : FailoverManager) (iface : String) (healthy : Bool) (now : ℚ) :
    FailoverManager :=
  if healthy then handle_connection_success fm iface now
  else handle_connection_failure fm iface now

/-- A full monitoring tick over the interfaces due for a check, each with
    its probe outcome. The last_check gating of the source guarantees each
    interface is processed at most once per tick. -/
def run_tick (fm : FailoverManager) (checks : List (String × Bool)) (now : ℚ) :
    FailoverManager :=
  checks.foldl (fun s c => tick_interface s c.1 c.2 now) fm

/-- Number of events of one type for one interface in an event list. -/
def countEv (evs : List FailoverEvent) (ty : String) (i : String) : Nat :=
  (evs.filter (fun e => e.event_type == ty && e.interface == i)).length

theorem snp_failed (fm : FailoverManager) :
    (select_new_primary fm).failed_interfaces = fm.failed_interfaces := by
  unfold select_new_primary
  split <;> rfl

theorem snp_events (fm : FailoverManager) :
    (select_new_primary fm).failover_events = fm.failover_events := by
  unfold select_new_primary
  split <;> rfl

/-- Per-interface case split of one tick step: either nothing changes in the
    failed set and the event log, or the interface enters the failed set with
    exactly one connection_lost event, or it leaves with exactly one
    connection_restored event. -/
theorem tick_interface_cases (fm : FailoverManager) (i : String) (h : Bool) (now : ℚ) :
    ((tick_interface fm i h now).failed_interfaces = fm.failed_interfaces ∧
      (tick_interface fm i h now).failover_events = fm.failover_events)
    ∨ (i ∉ fm.failed_interfaces ∧
       (tick_interface fm i h now).failed_interfaces = i :: fm.failed_interfaces ∧
       (tick_interface fm i h now).failover_events
         = fm.failover_events ++ [⟨"connection_lost", i, now⟩])
    ∨ (i ∈ fm.failed_interfaces ∧
       (tick_interface fm i h now).failed_interfaces
         = fm.failed_interfaces.filter (fun j => !(j == i)) ∧
       (tick_interface fm i h now).failover_events
         = fm.failover_events ++ [⟨"connection_restored", i, now⟩]) := by
  unfold tick_interface
  cases h with
  | true =>
    rw [if_pos rfl]
    unfold handle_connection_success
    dsimp only
    split
    · rename_i hcond
      unfold recover_interface
      dsimp only
      rw [if_pos hcond.1]
      exact Or.inr (Or.inr ⟨hcond.1, by rw [snp_failed], by rw [snp_events]⟩)
    · exact Or.inl ⟨rfl, rfl⟩
  | false =>
    rw [if_neg Bool.false_ne_true]
    unfold handle_connection_failure
    dsimp only
    split
    · unfold failover_interface
      dsimp only
      split
      · exact Or.inl ⟨rfl, rfl⟩
      · rename_i hnm
        split
        · exact Or.inr (Or.inl ⟨hnm, by rw [snp_failed], by rw [snp_events]⟩)
        · exact Or.inr (Or.inl ⟨hnm, rfl, rfl⟩)
    · exact Or.inl ⟨rfl, rfl⟩

theorem tick_mem_ne (fm : FailoverManager) (k : String) (h : Bool) (now : ℚ) (j : String)
    (hjk : j ≠ k) :
    (j ∈ (tick_interface fm k h now).failed_interfaces ↔ j ∈ fm.failed_interfaces) := by
  rcases tick_interface_cases fm k h now with ⟨hf, _⟩ | ⟨_, hf, _⟩ | ⟨_, hf, _⟩
  · rw [hf]
  · rw [hf]
    simp [List.mem_cons, hjk]
  · rw [hf]
    constructor
    · intro hmem
      exact (List.mem_filter.mp hmem).1
    · intro hmem
      exact List.mem_filter.mpr ⟨hmem, by simp [hjk]⟩

theorem run_tick_mem_ne (fm : FailoverManager) (checks : List (String × Bool)) (now : ℚ)
    (j : String) (hj : j ∉ checks.map Prod.fst) :
    (j ∈ (run_tick fm checks now).failed_interfaces ↔ j ∈ fm.failed_interfaces) := by
  induction checks generalizing fm with
  | nil => exact Iff.rfl
  | cons c rest ih =>
    obtain ⟨k, hb⟩ := c
    simp only [List.map_cons, List.mem_cons, not_or] at hj
    have hstep : run_tick fm ((k, hb) :: rest) now
        = run_tick (tick_interface fm k hb now) rest now := rfl
    rw [hstep, ih _ hj.2, tick_mem_ne fm k hb now j hj.1]

theorem countEv_cons (e : FailoverEvent) (evs : List FailoverEvent) (ty i : String) :
    countEv (e :: evs) ty i =
      (if (e.event_type == ty && e.interface == i) = true then 1 else 0)
        + countEv evs ty i := by
  unfold countEv
  rw [List.filter_cons]
  split
  · simp [Nat.add_comm]
  · simp

theorem run_tick_events (fm : FailoverManager) (checks : List (String × Bool)) (now : ℚ)
    (hnd : (checks.map Prod.fst).Nodup) :
    ∃ evs,
      (run_tick fm checks now).failover_events = fm.failover_events ++ evs ∧
      (∀ e ∈ evs, e.event_type = "connection_lost" ∨ e.event_type = "connection_restored") ∧
      (∀ i, countEv evs "connection_lost" i =
        if i ∈ (run_tick fm checks now).failed_interfaces ∧ i ∉ fm.failed_interfaces
        then 1 else 0) ∧
      (∀ i, countEv evs "connection_restored" i =
        if i ∈ fm.failed_interfaces ∧ i ∉ (run_tick fm checks now).failed_interfaces
        then 1 else 0) := by
  induction checks generalizing fm with
  | nil =>
    refine ⟨[], by simp [run_tick], by simp, fun i => ?_, fun i => ?_⟩
    · rw [if_neg (fun hcon => hcon.2 hcon.1)]
      rfl
    · rw [if_neg (fun hcon => hcon.2 hcon.1)]
      rfl
  | cons c rest ih =>
    obtain ⟨j, hb⟩ := c
    simp only [List.map_cons, List.nodup_cons] at hnd
    have hrun : run_tick fm ((j, hb) :: rest) now
        = run_tick (tick_interface fm j hb now) rest now := rfl
    obtain ⟨evs2, he2, ht2, hl2, hr2⟩ := ih (tick_interface fm j hb now) hnd.2
    have hpj : (j ∈ (run_tick (tick_interface fm j hb now) rest now).failed_interfaces
        ↔ j ∈ (tick_interface fm j hb now).failed_interfaces) :=
      run_tick_mem_ne _ rest now j hnd.1
    rcases tick_interface_cases fm j hb now with ⟨hf1, he1⟩ | ⟨hnm, hf1, he1⟩ | ⟨hm, hf1, he1⟩
    · refine ⟨evs2, ?_, ht2, fun i => ?_, fun i => ?_⟩
      · rw [hrun, he2, he1]
      · rw [hrun, hl2 i, hf1]
      · rw [hrun, hr2 i, hf1]
    · refine ⟨⟨"connection_lost", j, now⟩ :: evs2, ?_, ?_, fun i => ?_, fun i => ?_⟩
      · rw [hrun, he2, he1]
        simp
      · intro e he
        rcases List.mem_cons.mp he with he | he
        · subst he
          exact Or.inl rfl
        · exact ht2 e he
      · by_cases hij : i = j
        · subst hij
          rw [hrun, countEv_cons, if_pos (by simp), hl2 i]
          have hin1 : i ∈ (tick_interface fm i hb now).failed_interfaces := by
            rw [hf1]
            exact List.mem_cons_self _ _
          rw [if_neg (fun hcon => hcon.2 hin1)]
          exact (if_pos ⟨hpj.mpr hin1, hnm⟩).symm
        · have hji : (j == i) = false := beq_eq_false_iff_ne.mpr (fun hcon => hij hcon.symm)
          rw [hrun, countEv_cons]
          rw [if_neg (by simp [hji]), Nat.zero_add, hl2 i]
          exact if_congr (and_congr_right
            (fun _ => not_congr (tick_mem_ne fm j hb now i hij))) rfl rfl
      · rw [hrun, countEv_cons, if_neg (by simp), Nat.zero_add, hr2 i]
        by_cases hij : i = j
        · subst hij
          have hin1 : i ∈ (tick_interface fm i hb now).failed_interfaces := by
            rw [hf1]
            exact List.mem_cons_self _ _
          rw [if_neg (fun hcon => hcon.2 (hpj.mpr hin1)), if_neg (fun hcon => hnm hcon.1)]
        · exact if_congr (and_congr_left
            (fun _ => tick_mem_ne fm j hb now i hij)) rfl rfl
    · refine ⟨⟨"connection_restored", j, now⟩ :: evs2, ?_, ?_, fun i => ?_, fun i => ?_⟩
      · rw [hrun, he2, he1]
        simp
      · intro e he
        rcases List.mem_cons.mp he with he | he
        · subst he
          exact Or.inr rfl
        · exact ht2 e he
      · rw [hrun, countEv_cons, if_neg (by simp), Nat.zero_add, hl2 i]
        by_cases hij : i = j
        · subst hij
          have hout1 : i ∉ (tick_interface fm i hb now).failed_interfaces := by
            rw [hf1]
            intro hcon
            have := (List.mem_filter.mp hcon).2
            simp at this
          rw [if_neg (fun hcon => hout1 (hpj.mp hcon.1)),
            if_neg (fun hcon => hcon.2 hm)]
        · exact if_congr (and_congr_right
            (fun _ => not_congr (tick_mem_ne fm j hb now i hij))) rfl rfl
      · by_cases hij : i = j
        · subst hij
          rw [hrun, countEv_cons, if_pos (by simp), hr2 i]
          have hout1 : i ∉ (tick_interface fm i hb now).failed_interfaces := by
            rw [hf1]
            intro hcon
            have := (List.mem_filter.mp hcon).2
            simp at this
          rw [if_neg (fun hcon => hout1 hcon.1)]
          exact (if_pos ⟨hm, fun hcon => hout1 (hpj.mp hcon)⟩).symm
        · have hji : (j == i) = false := beq_eq_false_iff_ne.mpr (fun hcon => hij hcon.symm)
          rw [hrun, countEv_cons, if_neg (by simp [hji]), Nat.zero_add, hr2 i]
          exact if_congr (and_congr_left
            (fun _ => tick_mem_ne fm j hb now i hij)) rfl rfl

/-- C6: over one monitoring tick, an event is appended to the failover log
    iff the failed-set membership actually changed; an interface entering
    the failed set yields exactly one connection_lost event and an interface
    leaving it yields exactly one connection_restored event. -/
theorem C6_event_iff_failed_set_change (fm : FailoverManager)
    (checks : List (String × Bool)) (now : ℚ)
    (hnd : (checks.map Prod.fst).Nodup) :
    ∃ evs,
      (run_tick fm checks now).failover_events = fm.failover_events ++ evs ∧
      (∀ e ∈ evs, e.event_type = "connection_lost" ∨ e.event_type = "connection_restored") ∧
      (∀ i, countEv evs "connection_lost" i =
        if i ∈ (run_tick fm checks now).failed_interfaces ∧ i ∉ fm.failed_interfaces
        then 1 else 0) ∧
      (∀ i, countEv evs "connection_restored" i =
        if i ∈ fm.failed_interfaces ∧ i ∉ (run_tick fm checks now).failed_interfaces
        then 1 else 0) ∧
      (evs = [] ↔ ∀ i, (i ∈ (run_tick fm checks now).failed_interfaces
        ↔ i ∈ fm.failed_interfaces)) := by
  obtain ⟨evs, he, ht, hl, hr⟩ := run_tick_events fm checks now hnd
  refine ⟨evs, he, ht, hl, hr, ?_, ?_⟩
  · intro hnil i
    subst hnil
    constructor
    · intro hin
      by_contra hnot
      have h1 := hl i
      rw [if_pos ⟨hin, hnot⟩] at h1
      simp [countEv] at h1
    · intro hin
      by_contra hnot
      have h2 := hr i
      rw [if_pos ⟨hin, hnot⟩] at h2
      simp [countEv] at h2
  · intro hiff
    cases hevs : evs with
    | nil => rfl
    | cons e rest =>
      exfalso
      have hety := ht e (hevs ▸ List.mem_cons_self e rest)
      rcases hety with hety | hety
      · have hge : 1 ≤ countEv evs "connection_lost" e.interface := by
          rw [hevs, countEv_cons, if_pos (by simp [hety])]
          omega
        have h1 := hl e.interface
        by_cases hcond : e.interface ∈ (run_tick fm checks now).failed_interfaces
            ∧ e.interface ∉ fm.failed_interfaces
        · exact hcond.2 ((hiff e.interface).mp hcond.1)
        · rw [if_neg hcond] at h1
          omega
      · have hge : 1 ≤ countEv evs "connection_restored" e.interface := by
          rw [hevs, countEv_cons, if_pos (by simp [hety])]
          omega
        have h2 := hr e.interface
        by_cases hcond : e.interface ∈ fm.failed_interfaces
            ∧ e.interface ∉ (run_tick fm checks now).failed_interfaces
        · exact hcond.2 ((hiff e.interface).mpr hcond.1)
        · rw [if_neg hcond] at h2
          omega

/-- A failover manager two failures into the hysteresis window for eth0. -/
def fmNearFail : FailoverManager :=
  { primary_interface := some "eth0"
    backup_interfaces := ["eth0", "wlan0"]
    failed_interfaces := []
    failover_threshold := 3
    recovery_threshold := 2
    failure_counts := [("eth0", 2)]
    success_counts := []
    failover_events := [] }

/-- C6 witness: the event/membership correspondence instantiated at a tick
    whose third consecutive failure fails eth0 over. -/
theorem C6_event_iff_failed_set_change_witness :
    ∃ evs,
      (run_tick fmNearFail [("eth0", false)] 5).failover_events
        = fmNearFail.failover_events ++ evs ∧
      (∀ e ∈ evs, e.event_type = "connection_lost" ∨ e.event_type = "connection_restored") ∧
      (∀ i, countEv evs "connection_lost" i =
        if i ∈ (run_tick fmNearFail [("eth0", false)] 5).failed_interfaces
            ∧ i ∉ fmNearFail.failed_interfaces
        then 1 else 0) ∧
      (∀ i, countEv evs "connection_restored" i =
        if i ∈ fmNearFail.failed_interfaces
            ∧ i ∉ (run_tick fmNearFail [("eth0", false)] 5).failed_interfaces
        then 1 else 0) ∧
      (evs = [] ↔ ∀ i, (i ∈ (run_tick fmNearFail [("eth0", false)] 5).failed_interfaces
        ↔ i ∈ fmNearFail.failed_interfaces)) :=
  C6_event_iff_failed_set_change fmNearFail [("eth0", false)] 5 (by decide)

/-! ## Failover manager: per-tick health check majority
    (FailoverManager._check_connection_health) -/

/-- The two default reachability targets. -/
def health_check_targets : List String := ["8.8.8.8", "1.1.1.1"]

/-- FailoverManager._check_connection_health on the probe outcomes: healthy
    when the successes reach len(targets) // 2 + 1. -/
def check_connection_health (results : List Bool) : Bool :=
  decide (results.length / 2 + 1 ≤ results.count true)

/-- C7: an interface is reported healthy iff strictly more than half of its
    probes succeed, and with the default two targets both probes must
    succeed. -/
theorem C7_healthy_iff_strict_majority (results : List Bool) :
    (check_connection_health results = true ↔ results.length < 2 * results.count true) ∧
    (∀ b1 b2, check_connection_health [b1, b2] = (b1 && b2)) ∧
    health_check_targets.length = 2 := by
  refine ⟨?_, ?_, rfl⟩
  · unfold check_connection_health
    rw [decide_eq_true_eq]
    omega
  · intro b1 b2
    cases b1 <;> cases b2 <;> rfl

/-- C7 witness: the majority criterion instantiated at one succeeding and
    one failing probe. -/
theorem C7_healthy_iff_strict_majority_witness :
    (check_connection_health [true, false] = true
      ↔ ([true, false] : List Bool).length < 2 * ([true, false] : List Bool).count true) ∧
    (∀ b1 b2, check_connection_health [b1, b2] = (b1 && b2)) ∧
    health_check_targets.length = 2 :=
  C7_healthy_iff_strict_majority [true, false]

/-! ## Mesh manager: peer table, discovery tick, stale eviction, status view
    (mesh_network/core/mesh_manager.py) -/

/-- A validated discovery payload as consumed by _run_node_discovery. -/
structure NodeData where
  node_id : String
  ip_address : String
  connections : List String
  bandwidth : List (String × ℚ)
  latency : List (String × ℚ)
  data_caps : List (String × ℚ)
deriving DecidableEq, Repr

/-- One discovered payload merged into mesh_nodes: create the peer on first
    reception, else touch last_seen. -/
def process_discovered (nodes : List (String × MeshNode)) (nd : NodeData) (now : ℚ) :
    List (String × MeshNode) :=
  match lookupA nodes nd.node_id with
  | none =>
    nodes ++ [(nd.node_id,
      { node_id := nd.node_id
        ip_address := nd.ip_address
        connections := nd.connections
        bandwidth := nd.bandwidth
        latency := nd.latency
        last_seen := now
        data_caps := nd.data_caps })]
  | some _ => updateA nodes nd.node_id (fun n => { n with last_seen := now })

/-- MeshManager._cleanup_stale_nodes: drop peers older than the 60 s TTL. -/
def cleanup_stale_nodes (nodes : List (String × MeshNode)) (now : ℚ) :
    List (String × MeshNode) :=
  nodes.filter (fun p => !(decide (60 < now - p.2.last_seen)))

/-- One pass of the discovery loop body: merge the discovered payloads, then
    evict stale peers. -/
def discovery_tick (nodes : List (String × MeshNode)) (discovered : List NodeData)
    (now : ℚ) : List (String × MeshNode) :=
  cleanup_stale_nodes (discovered.foldl (fun ns nd => process_discovered ns nd now) nodes) now

/-- The status dictionary of MeshManager.get_mesh_status. -/
structure MeshStatus where
  local_node : Option MeshNode
  mesh_nodes : List (String × MeshNode)
  active_connections : List String
  total_nodes : Nat
  running : Bool
deriving DecidableEq, Repr

/-- MeshManager.get_mesh_status: a pure read of the shared state. -/
def get_mesh_status (localNode : Option MeshNode) (nodes : List (String × MeshNode))
    (active : List String) (running : Bool) : MeshStatus :=
  { local_node := localNode
    mesh_nodes := nodes
    active_connections := active
    total_nodes := nodes.length + 1
    running := running }

theorem lookupA_append_right {α : Type} (l m : List (String × α)) (k : String)
    (h : lookupA l k = none) : lookupA (l ++ m) k = lookupA m k := by
  induction l with
  | nil => rfl
  | cons p rest ih =>
    obtain ⟨a, b⟩ := p
    by_cases hak : (a == k) = true
    · rw [lookupA_cons, if_pos hak] at h
      exact absurd h (by simp)
    · rw [lookupA_cons, if_neg hak] at h
      rw [List.cons_append, lookupA_cons, if_neg hak]
      exact ih h

theorem process_discovered_refreshes (nodes : List (String × MeshNode)) (nd : NodeData)
    (now : ℚ) :
    ∃ n, lookupA (process_discovered nodes nd now) nd.node_id = some n ∧
      n.last_seen = now := by
  unfold process_discovered
  cases hl : lookupA nodes nd.node_id with
  | none =>
    refine ⟨{ node_id := nd.node_id
              ip_address := nd.ip_address
              connections := nd.connections
              bandwidth := nd.bandwidth
              latency := nd.latency
              last_seen := now
              data_caps := nd.data_caps }, ?_, rfl⟩
    rw [lookupA_append_right nodes _ nd.node_id hl, lookupA_cons, if_pos (by simp)]
  | some n =>
    refine ⟨{ n with last_seen := now }, ?_, rfl⟩
    rw [lookupA_updateA_self, hl]
    rfl

theorem process_discovered_keeps_fresh (nodes : List (String × MeshNode)) (nd : NodeData)
    (now : ℚ) (k : String) (n : MeshNode)
    (h : lookupA nodes k = some n) (hfresh : n.last_seen = now) :
    ∃ m, lookupA (process_discovered nodes nd now) k = some m ∧ m.last_seen = now := by
  unfold process_discovered
  cases hl : lookupA nodes nd.node_id with
  | none =>
    refine ⟨n, ?_, hfresh⟩
    rw [lookupA_append_left nodes _ k (by rw [h]; rfl), h]
  | some x =>
    by_cases hk : k = nd.node_id
    · subst hk
      refine ⟨{ n with last_seen := now }, ?_, rfl⟩
      rw [lookupA_updateA_self, h]
      rfl
    · refine ⟨n, ?_, hfresh⟩
      rw [lookupA_updateA_ne nodes nd.node_id k _ hk, h]

theorem fold_discovered_keeps_fresh (discovered : List NodeData)
    (nodes : List (String × MeshNode)) (now : ℚ) (k : String) (n : MeshNode)
    (h : lookupA nodes k = some n) (hfresh : n.last_seen = now) :
    ∃ m, lookupA (discovered.foldl (fun ns nd => process_discovered ns nd now) nodes) k
        = some m ∧ m.last_seen = now := by
  induction discovered generalizing nodes n with
  | nil => exact ⟨n, h, hfresh⟩
  | cons d ds ih =>
    obtain ⟨m, hm, hmf⟩ := process_discovered_keeps_fresh nodes d now k n h hfresh
    exact ih (process_discovered nodes d now) m hm hmf

theorem fold_discovered_refreshes (discovered : List NodeData)
    (nodes : List (String × MeshNode)) (now : ℚ) (nd : NodeData) (hnd : nd ∈ discovered) :
    ∃ m, lookupA (discovered.foldl (fun ns nd => process_discovered ns nd now) nodes)
        nd.node_id = some m ∧ m.last_seen = now := by
  induction discovered generalizing nodes with
  | nil => simp at hnd
  | cons d ds ih =>
    rcases List.mem_cons.mp hnd with hnd | hnd
    · subst hnd
      obtain ⟨n, hn, hnf⟩ := process_discovered_refreshes nodes nd now
      exact fold_discovered_keeps_fresh ds (process_discovered nodes nd now) now
        nd.node_id n hn hnf
    · exact ih (process_discovered nodes d now) hnd

theorem lookupA_filter_of_found {α : Type} (l : List (String × α)) (k : String) (v : α)
    (pred : String × α → Bool) (h : lookupA l k = some v)
    (hv : ∀ a, (a == k) = true → pred (a, v) = true) :
    lookupA (l.filter pred) k = some v := by
  induction l with
  | nil => simp [lookupA] at h
  | cons p rest ih =>
    obtain ⟨a, b⟩ := p
    by_cases hak : (a == k) = true
    · rw [lookupA_cons, if_pos hak] at h
      simp only [Option.some_inj] at h
      subst h
      rw [List.filter_cons, if_pos (hv a hak), lookupA_cons, if_pos hak]
    · rw [lookupA_cons, if_neg hak] at h
      rw [List.filter_cons]
      split
      · rw [lookupA_cons, if_neg hak]
        exact ih h
      · exact ih h

/-- C8: after a discovery tick every peer still observable via the status
    view is at most 60 s old, and every peer discovered during the tick is
    retained with a refreshed last_seen. -/
theorem C8_stale_peers_evicted (nodes : List (String × MeshNode))
    (discovered : List NodeData) (now : ℚ) (localNode : Option MeshNode)
    (active : List String) (running : Bool) :
    (∀ p ∈ (get_mesh_status localNode (discovery_tick nodes discovered now)
        active running).mesh_nodes, now - p.2.last_seen ≤ 60) ∧
    (∀ nd ∈ discovered, ∃ m,
      lookupA (discovery_tick nodes discovered now) nd.node_id = some m ∧
      m.last_seen = now) := by
  constructor
  · intro p hp
    have hmem := List.mem_filter.mp hp
    have hpred := hmem.2
    simp only [Bool.not_eq_true', decide_eq_false_iff_not, not_lt] at hpred
    exact hpred
  · intro nd hnd
    obtain ⟨m, hm, hmf⟩ := fold_discovered_refreshes discovered nodes now nd hnd
    refine ⟨m, ?_, hmf⟩
    unfold discovery_tick cleanup_stale_nodes
    apply lookupA_filter_of_found _ _ _ _ hm
    intro a _
    have hlt : ¬ (60 : ℚ) < now - m.last_seen := by
      rw [hmf, sub_self]
      norm_num
    simp [hlt]

/-- A stale peer: 120 s old at observation time 200. -/
def staleNode : MeshNode :=
  { node_id := "peer-A"
    ip_address := "192.168.1.5"
    connections := ["eth0"]
    bandwidth := [("eth0", 100)]
    latency := [("eth0", 10)]
    last_seen := 80
    data_caps := [("eth0", 0)] }

/-- A fresh peer: 10 s old at observation time 200. -/
def freshNode : MeshNode :=
  { node_id := "peer-B"
    ip_address := "192.168.1.6"
    connections := ["wlan0"]
    bandwidth := [("wlan0", 50)]
    latency := [("wlan0", 25)]
    last_seen := 190
    data_caps := [("wlan0", 0)] }

/-- C8 witness: the eviction bound instantiated at a table holding one stale
    and one fresh peer with no new discoveries. -/
theorem C8_stale_peers_evicted_witness :
    (∀ p ∈ (get_mesh_status none
        (discovery_tick [("peer-A", staleNode), ("peer-B", freshNode)] [] 200)
        [] true).mesh_nodes, (200 : ℚ) - p.2.last_seen ≤ 60) ∧
    (∀ nd ∈ ([] : List NodeData), ∃ m,
      lookupA (discovery_tick [("peer-A", staleNode), ("peer-B", freshNode)] [] 200)
        nd.node_id = some m ∧ m.last_seen = 200) :=
  C8_stale_peers_evicted [("peer-A", staleNode), ("peer-B", freshNode)] [] 200 none [] true

/-! ## Metrics collector: rolling peaks and the performance report
    (mesh_network/utils/metrics.py) -/

/-- The PerformanceMetrics dataclass. -/
structure PerformanceMetrics where
  bandwidth_up : ℚ
  bandwidth_down : ℚ
  latency : ℚ
  jitter : ℚ
  packet_loss : ℚ
  timestamp : ℚ
deriving DecidableEq, Repr

/-- The InterfaceMetrics dataclass (history is the bounded deque). -/
structure InterfaceMetrics where
  interface : String
  current : PerformanceMetrics
  history : List PerformanceMetrics
  averages : PerformanceMetrics
  peaks : PerformanceMetrics
deriving DecidableEq, Repr

/-- Python max over a list of floats; None on the empty list the source
    guards with if-else. -/
def pyMax : List ℚ → Option ℚ
  | [] => none
  | x :: xs => some (xs.foldl max x)

/-- statistics.mean guarded by the sources if-else against the empty list. -/
def pyMeanD (l : List ℚ) : ℚ :=
  if l.isEmpty then 0 else l.sum / l.length

/-- MetricsCollector._update_averages_and_peaks: early return on empty
    history, else recompute per-field mean and max over the history. -/
def update_averages_and_peaks (im : InterfaceMetrics) (now : ℚ) : InterfaceMetrics :=
  if im.history = [] then im
  else
    let bandwidths := im.history.map PerformanceMetrics.bandwidth_up
    let latencies := im.history.map PerformanceMetrics.latency
    let jitters := im.history.map PerformanceMetrics.jitter
    let losses := im.history.map PerformanceMetrics.packet_loss
    { im with
      averages :=
        { bandwidth_up := pyMeanD bandwidths
          bandwidth_down := pyMeanD bandwidths
          latency := pyMeanD latencies
          jitter := pyMeanD jitters
          packet_loss := pyMeanD losses
          timestamp := now }
      peaks :=
        { bandwidth_up := (pyMax bandwidths).getD 0
          bandwidth_down := (pyMax bandwidths).getD 0
          latency := (pyMax latencies).getD 0
          jitter := (pyMax jitters).getD 0
          packet_loss := (pyMax losses).getD 0
          timestamp := now } }

/-- Python attribute access on a PerformanceMetrics value: none models
    AttributeError for a name the dataclass does not define. -/
def pmAttr (m : PerformanceMetrics) : String → Option ℚ
  | "bandwidth_up" => some m.bandwidth_up
  | "bandwidth_down" => some m.bandwidth_down
  | "latency" => some m.latency
  | "jitter" => some m.jitter
  | "packet_loss" => some m.packet_loss
  | "timestamp" => some m.timestamp
  | _ => none

/-- The peaks block of get_performance_report. The packet_loss entry is read
    from metrics.peaks.peaks in the source, an attribute PerformanceMetrics
    does not have, so building the block fails. -/
def peaks_block (m : PerformanceMetrics) : Option (List (String × ℚ)) :=
  match pmAttr m "bandwidth_up" with
  | none => none
  | some bu =>
    match pmAttr m "bandwidth_down" with
    | none => none
    | some bd =>
      match pmAttr m "latency" with
      | none => none
      | some la =>
        match pmAttr m "jitter" with
        | none => none
        | some ji =>
          match pmAttr m "peaks" with
          | none => none
          | some pl =>
            some [("bandwidth_up", bu), ("bandwidth_down", bd), ("latency", la),
                  ("jitter", ji), ("packet_loss", pl)]

/-- The current and averages blocks read only defined attributes. -/
def metrics_block (m : PerformanceMetrics) : List (String × ℚ) :=
  [("bandwidth_up", m.bandwidth_up), ("bandwidth_down", m.bandwidth_down),
   ("latency", m.latency), ("jitter", m.jitter), ("packet_loss", m.packet_loss)]

/-- The per-interface entry of the report. -/
def interface_block (im : InterfaceMetrics) :
    Option (List (String × List (String × ℚ))) :=
  match peaks_block im.peaks with
  | none => none
  | some pk =>
    some [("current", metrics_block im.current),
          ("averages", metrics_block im.averages),
          ("peaks", pk)]

/-- MetricsCollector.get_performance_report restricted to the
    interface_metrics section; none models the uncaught AttributeError. -/
def get_performance_report (interfaces : List (String × InterfaceMetrics)) :
    Option (List (String × List (String × List (String × ℚ)))) :=
  match interfaces with
  | [] => some []
  | (k, im) :: rest =>
    match interface_block im with
    | none => none
    | some b =>
      match get_performance_report rest with
      | none => none
      | some bs => some ((k, b) :: bs)

theorem foldl_max_mem (xs : List ℚ) (a : ℚ) : xs.foldl max a = a ∨ xs.foldl max a ∈ xs := by
  induction xs generalizing a with
  | nil => exact Or.inl rfl
  | cons x xs ih =>
    rw [List.foldl_cons]
    rcases ih (max a x) with h | h
    · rcases le_total a x with hax | hax
      · refine Or.inr ?_
        rw [h, max_eq_right hax]
        exact List.mem_cons_self x xs
      · refine Or.inl ?_
        rw [h, max_eq_left hax]
    · exact Or.inr (List.mem_cons_of_mem x h)

theorem foldl_max_ge (xs : List ℚ) (a : ℚ) :
    a ≤ xs.foldl max a ∧ ∀ x ∈ xs, x ≤ xs.foldl max a := by
  induction xs generalizing a with
  | nil => exact ⟨le_refl a, by simp⟩
  | cons x xs ih =>
    rw [List.foldl_cons]
    obtain ⟨h1, h2⟩ := ih (max a x)
    refine ⟨le_trans (le_max_left a x) h1, ?_⟩
    intro y hy
    rcases List.mem_cons.mp hy with hyx | hy
    · rw [hyx]
      exact le_trans (le_max_right a x) h1
    · exact h2 y hy

/-- C9 (code behaviour): generating the performance report fails for every
    nonempty interface table, because the peaks block reads the undefined
    attribute peaks.peaks for packet_loss; the peak value that
    _update_averages_and_peaks itself stores is the genuine maximum of the
    stored packet_loss samples. -/
theorem C9_report_generation_fails (interfaces : List (String × InterfaceMetrics))
    (hne : interfaces ≠ []) :
    get_performance_report interfaces = none ∧
    (∀ im now, im.history ≠ [] →
      ((update_averages_and_peaks im now).peaks.packet_loss
          ∈ im.history.map PerformanceMetrics.packet_loss ∧
        ∀ x ∈ im.history.map PerformanceMetrics.packet_loss,
          x ≤ (update_averages_and_peaks im now).peaks.packet_loss)) := by
  constructor
  · cases interfaces with
    | nil => exact absurd rfl hne
    | cons p rest =>
      obtain ⟨k, im⟩ := p
      rfl
  · intro im now hh
    have hred : (update_averages_and_peaks im now).peaks.packet_loss
        = (pyMax (im.history.map PerformanceMetrics.packet_loss)).getD 0 := by
      unfold update_averages_and_peaks
      rw [if_neg hh]
    rw [hred]
    cases hhist : im.history with
    | nil => exact absurd hhist hh
    | cons h0 hs =>
      simp only [List.map_cons, pyMax, Option.getD_some]
      constructor
      · rcases foldl_max_mem (hs.map PerformanceMetrics.packet_loss)
            h0.packet_loss with h | h
        · rw [h]
          exact List.mem_cons_self _ _
        · exact List.mem_cons_of_mem _ h
      · intro x hx
        obtain ⟨h1, h2⟩ := foldl_max_ge (hs.map PerformanceMetrics.packet_loss)
          h0.packet_loss
        rcases List.mem_cons.mp hx with hx0 | hx
        · exact hx0 ▸ h1
        · exact h2 x hx

/-- A one-sample interface metrics record for eth0. -/
def imOneSample : InterfaceMetrics :=
  { interface := "eth0"
    current := ⟨100, 100, 10, 1, 2, 0⟩
    history := [⟨100, 100, 10, 1, 2, 0⟩]
    averages := ⟨100, 100, 10, 1, 2, 0⟩
    peaks := ⟨100, 100, 10, 1, 2, 0⟩ }

/-- C9 witness: the failure evaluated at the concrete one-interface state. -/
theorem C9_report_generation_fails_witness :
    get_performance_report [("eth0", imOneSample)] = none :=
  (C9_report_generation_fails [("eth0", imOneSample)] (List.cons_ne_nil _ _)).1

end Mesh
